import Mathlib

/-!
# Verification of the GA_Deploys reporting core

Shallow embedding of the two Streamlit report generators
(`src/app_monthly_v6.py` and `src/app_weekly_v1.py`) and proofs of the
spec claims about them.

Conventions of the embedding:
* Python `datetime.date` values become the `Date` structure below
  (year / month / day as naturals); `timedelta` arithmetic becomes exact
  day-stepping (`nextDay` / `addDays` / `prevDay`), which is what Python's
  date arithmetic computes for valid Gregorian dates.
* Metric values arriving from the analytics API are numeric strings in
  Python and are parsed at the boundary (`float(...)` in the monthly app,
  `int(...)` in the weekly app).  The embedding carries the parsed values
  directly: monthly values are `ℚ` (floats), weekly values are `ℤ` (ints).
* Python `round(x, 2)` is modelled as rounding the exact rational value to
  hundredths with ties to even (`round2`); float `repr` inside f-strings is
  modelled for the two-decimal domain those rounded values live in.
* The xlsxwriter workbook is modelled as the grid of cells the source
  writes, each cell carrying its value and the format object passed to
  `worksheet.write`.
-/

namespace GADeploys

/-! ## Gregorian dates (Python `datetime.date`) -/

/-- A calendar date, as Python's `datetime.date`. -/
structure Date where
  year : ℕ
  month : ℕ
  day : ℕ
  deriving DecidableEq, Repr

/-- Gregorian leap-year test. -/
def isLeap (y : ℕ) : Bool :=
  y % 4 = 0 && (y % 100 != 0 || y % 400 = 0)

/-- Number of days of month `m` of year `y`. -/
def daysInMonth (y m : ℕ) : ℕ :=
  if m = 2 then (if isLeap y then 29 else 28)
  else if m = 4 ∨ m = 6 ∨ m = 9 ∨ m = 11 then 30
  else 31

/-- A structurally valid Gregorian date. -/
def Date.Valid (d : Date) : Prop :=
  1 ≤ d.month ∧ d.month ≤ 12 ∧ 1 ≤ d.day ∧ d.day ≤ daysInMonth d.year d.month

instance (d : Date) : Decidable d.Valid := by
  unfold Date.Valid; infer_instance

/-- Chronological comparison of dates (Python `<=` on dates). -/
def Date.ble (a b : Date) : Bool :=
  decide (a.year < b.year ∨ (a.year = b.year ∧
    (a.month < b.month ∨ (a.month = b.month ∧ a.day ≤ b.day))))

/-- Python's `min` on two dates. -/
def dmin (a b : Date) : Date := if Date.ble a b then a else b

/-- The day after `d` (`d + timedelta(days=1)` on valid dates). -/
def nextDay (d : Date) : Date :=
  if d.day < daysInMonth d.year d.month then ⟨d.year, d.month, d.day + 1⟩
  else if d.month < 12 then ⟨d.year, d.month + 1, 1⟩
  else ⟨d.year + 1, 1, 1⟩

/-- `d + timedelta(days=n)` on valid dates. -/
def addDays (d : Date) : ℕ → Date
  | 0 => d
  | n + 1 => addDays (nextDay d) n

/-- The day before `d` (`d - timedelta(days=1)` on valid dates). -/
def prevDay (d : Date) : Date :=
  if 1 < d.day then ⟨d.year, d.month, d.day - 1⟩
  else if 1 < d.month then ⟨d.year, d.month - 1, daysInMonth d.year (d.month - 1)⟩
  else ⟨d.year - 1, 12, 31⟩

/-- Python `d.replace(day=1)`. -/
def firstOfMonth (d : Date) : Date := ⟨d.year, d.month, 1⟩

/-- `strftime("%b")`: the month's short name (C locale). -/
def monthAbbrev (m : ℕ) : String :=
  if m = 1 then "Jan" else if m = 2 then "Feb" else if m = 3 then "Mar"
  else if m = 4 then "Apr" else if m = 5 then "May" else if m = 6 then "Jun"
  else if m = 7 then "Jul" else if m = 8 then "Aug" else if m = 9 then "Sep"
  else if m = 10 then "Oct" else if m = 11 then "Nov" else "Dec"

/-- Linear month index: `12 * year + (month - 1)`.  Two dates lie in the same
calendar month iff their indices agree. -/
def monthIndex (d : Date) : ℕ := 12 * d.year + (d.month - 1)

/-- The first day of the calendar month with linear index `i`. -/
def dateOfIndex (i : ℕ) : Date := ⟨i / 12, i % 12 + 1, 1⟩

/-- The last day of the calendar month with linear index `i`. -/
def lastOfIndex (i : ℕ) : Date :=
  ⟨i / 12, i % 12 + 1, daysInMonth (i / 12) (i % 12 + 1)⟩

/-! ## `generate_months` (src/app_monthly_v6.py, lines 75–88) -/

/-- One reporting period as built by `generate_months`: the dict
`{"month": ..., "start_date": ..., "end_date": ...}`.  The source serializes
the two dates with `strftime("%Y-%m-%d")`; the embedding keeps the date
values themselves. -/
structure Period where
  month : String
  start_date : Date
  end_date : Date
  deriving DecidableEq, Repr

/-- The `while current <= end_date` loop of `generate_months`, with explicit
fuel (the source loop terminates because each iteration advances `current`
to the first day of the next month). -/
def generateMonthsGo : ℕ → Date → Date → List Period
  | 0, _, _ => []
  | fuel + 1, current, endDate =>
    if Date.ble current endDate then
      let monthStart := firstOfMonth current
      let nextMonth := firstOfMonth (addDays monthStart 31)
      let monthEnd := prevDay nextMonth
      { month := monthAbbrev monthStart.month,
        start_date := monthStart,
        end_date := dmin monthEnd endDate } :: generateMonthsGo fuel nextMonth endDate
    else []

/-- `generate_months(start_date, end_date)`: one period per calendar month
from `start`'s month to `end`'s month.  The fuel `12 * (end.year + 1)` bounds
the number of loop iterations for any valid input. -/
def generate_months (startDate endDate : Date) : List Period :=
  generateMonthsGo (12 * (endDate.year + 1)) startDate endDate

/-- Last day of the calendar month containing `d`. -/
def endOfMonth (d : Date) : Date := ⟨d.year, d.month, daysInMonth d.year d.month⟩

/-- The period `generate_months` emits for the calendar month with linear
index `i`, given overall end date `e`. -/
def mkPeriod (i : ℕ) (e : Date) : Period :=
  ⟨monthAbbrev (i % 12 + 1), dateOfIndex i, dmin (lastOfIndex i) e⟩

/-- Placeholder period used as `List.getD` default. -/
def noPeriod : Period := ⟨"", ⟨0, 0, 0⟩, ⟨0, 0, 0⟩⟩

/-! ## Rounding and number rendering

Python `round(x, 2)` rounds to hundredths with ties to even; the embedding
applies that rule to the exact rational value carried by the model (the
deltas the claims evaluate are all exactly representable, so the
float-versus-rational distinction does not bite on them). -/

/-- Round a rational to the nearest integer, ties to even (Python's
`round(x)` rule on exact values). -/
def roundHalfEven (q : ℚ) : ℤ :=
  let f : ℤ := ⌊q⌋
  let r : ℚ := q - f
  if r < 1 / 2 then f
  else if 1 / 2 < r then f + 1
  else if f % 2 = 0 then f else f + 1

/-- Python `round(x, 2)`. -/
def round2 (q : ℚ) : ℚ := (roundHalfEven (100 * q) : ℚ) / 100

/-- Renders a rational with at most two decimal places the way Python's
f-string renders the float `round(x, 2)`: an integer value prints with a
trailing `.0`, a multiple of a tenth with one decimal digit, anything else
with two.  Models `f"...{abs(percentage_change)}%..."` on the exact values
the claims evaluate. -/
def floatRepr (q : ℚ) : String :=
  let sign := if q < 0 then "-" else ""
  let h : ℤ := ⌊|q| * 100⌋
  let ip := h / 100
  let fr := h % 100
  if fr = 0 then sign ++ toString ip ++ ".0"
  else if fr % 10 = 0 then sign ++ toString ip ++ "." ++ toString (fr / 10)
  else if fr < 10 then sign ++ toString ip ++ ".0" ++ toString fr
  else sign ++ toString ip ++ "." ++ toString fr

/-- Renders a rational with exactly two decimal digits, the way Python's
`f"{x:.2f}"` renders the change values of the weekly app. -/
def fixed2 (q : ℚ) : String :=
  let h : ℤ := roundHalfEven (100 * q)
  let sign := if h < 0 then "-" else ""
  let ip := |h| / 100
  let fr := |h| % 100
  sign ++ toString ip ++ "." ++ (if fr < 10 then "0" else "") ++ toString fr

/-! ## Monthly flow (src/app_monthly_v6.py)

The parts of the monthly app the claims are about: the per-month fetch loop
with its `try/except` (lines 118–135), the `% Difference` row
(lines 159–169), and the rich-text insights (lines 186–206). -/

/-- Cell formats created by `workbook.add_format` in the monthly app.
`percentage` is `percentage_format` (line 145, `num_format: 0.00%`);
`content` is `content_format` (line 144). -/
inductive Fmt where
  | header
  | content
  | percentage
  | improvement
  | drop
  deriving DecidableEq, Repr

/-- A cell value written by `worksheet.write`: text or a number. -/
inductive CellValue where
  | str (s : String)
  | num (q : ℚ)
  deriving DecidableEq, Repr

/-- One written cell: value plus the format object passed to `write`. -/
structure Cell where
  value : CellValue
  fmt : Fmt
  deriving DecidableEq, Repr

/-- One data row of `all_data`: the month label followed by one summed value
per selected metric (Python: `[month['month'], v1, v2, ...]`). -/
structure DataRow where
  label : String
  values : List ℚ
  deriving DecidableEq, Repr

/-- The aggregation inside the monthly fetch loop (lines 123–128): for each
requested metric index, sum `float(row.metric_values[i].value)` over all
response rows.  A response is a list of rows, each row the list of its
parsed metric values. -/
def monthlyAggregate (label : String) (rows : List (List ℚ)) (numMetrics : ℕ) : DataRow :=
  ⟨label, (List.range numMetrics).map (fun i => (rows.map (fun r => r.getD i 0)).sum)⟩

/-- The per-month fetch loop (lines 118–135): each month is queried inside
`try/except`; on success its aggregate row is appended to `all_data`, on any
exception the month is skipped (only `st.error` is shown) and the loop
continues. -/
def buildAllData (months : List Period)
    (fetch : Period → Except String (List (List ℚ))) (numMetrics : ℕ) : List DataRow :=
  months.filterMap (fun m =>
    match fetch m with
    | .ok rows => some (monthlyAggregate m.month rows numMetrics)
    | .error _ => none)

/-- `percentage_change` of the insights loop (line 198):
`round((current - previous) / previous * 100, 2) if previous != 0 else 0`. -/
def percentage_change (previous current : ℚ) : ℚ :=
  if previous ≠ 0 then round2 ((current - previous) / previous * 100) else 0

/-- `change_type` (line 199): `"improvement" if percentage_change > 0 else
"drop"`. -/
def change_type (pc : ℚ) : String :=
  if pc > 0 then "improvement" else "drop"

/-- `percentage_differences` (lines 162–165): the `% Difference` cell values,
`round((last - second_last) / second_last * 100, 2) * 0.01 if second_last
!= 0 else 0`, pairing the last row's metric values with the second-last
row's. -/
def percentage_differences (lastVals secondLastVals : List ℚ) : List ℚ :=
  (lastVals.zip secondLastVals).map (fun p =>
    if p.2 ≠ 0 then round2 ((p.1 - p.2) / p.2 * 100) * (1 / 100) else 0)

/-- The `% Difference` row (lines 159–169), when it exists: written only
`if len(all_data) >= 2`, from `all_data[-1][1:]` and `all_data[-2][1:]`,
every cell written with `content_format`. -/
def percentDiffRow (all_data : List DataRow) : Option (List Cell) :=
  if all_data.length ≥ 2 then
    let lastRow := (all_data.getD (all_data.length - 1) ⟨"", []⟩).values
    let secondLastRow := (all_data.getD (all_data.length - 2) ⟨"", []⟩).values
    some (⟨.str "% Difference", .content⟩ ::
      (percentage_differences lastRow secondLastRow).map (fun q => ⟨.num q, .content⟩))
  else none

/-- The data sheet grid of the "GA4 Data" worksheet, as the source writes it
(lines 150–169): header row with `header_format`, one row per `all_data`
entry with `content_format`, then the `% Difference` row when present. -/
def dataSheetRows (headers : List String) (all_data : List DataRow) : List (List Cell) :=
  (headers.map (fun h => ⟨.str h, .header⟩)) ::
    (all_data.map (fun r =>
      (⟨.str r.label, .content⟩ : Cell) :: r.values.map (fun v => ⟨.num v, .content⟩))
    ++ (match percentDiffRow all_data with
        | some row => [row]
        | none => []))

/-- The rich-text insight line for one metric (lines 194–206): the
concatenation of the parts passed to `write_rich_string`, with
`percentage_text = f"{change_type} of {abs(percentage_change)}%"`. -/
def insightText (metricName lastMonth secondLastMonth : String)
    (previous current : ℚ) : String :=
  let pc := percentage_change previous current
  let ct := change_type pc
  "We observed a " ++ (ct ++ " of " ++ floatRepr |pc| ++ "%") ++
    " in " ++ metricName ++ " in " ++ lastMonth ++ " compared to " ++ secondLastMonth ++ "."

/-- The insights block (lines 186–206), present only `if len(all_data) >= 2`:
one insight line per metric column `i = 1 .. len(headers) - 1`, comparing
`all_data[-1][i]` against `all_data[-2][i]`. -/
def insightsBlock (headers : List String) (all_data : List DataRow) : Option (List String) :=
  if all_data.length ≥ 2 then
    let lastRow := all_data.getD (all_data.length - 1) ⟨"", []⟩
    let secondLastRow := all_data.getD (all_data.length - 2) ⟨"", []⟩
    some ((List.range (headers.length - 1)).map (fun j =>
      insightText (headers.getD (j + 1) "") lastRow.label secondLastRow.label
        (secondLastRow.values.getD j 0) (lastRow.values.getD j 0)))
  else none

/-- The monthly report workbook: the data sheet plus the "Graphs" sheet (one
chart per metric).  The workbook is created and closed unconditionally once
the fetch loop is over; nothing in the renderer can fail, whatever
`all_data` holds. -/
structure MonthlyReport where
  dataSheet : List (List Cell)
  insights : Option (List String)
  chartCount : ℕ
  deriving DecidableEq, Repr

/-- The whole monthly rendering stage (lines 137–232). -/
def monthlyReport (selectedMetrics : List String) (all_data : List DataRow) :
    MonthlyReport :=
  let headers := "Month" :: selectedMetrics
  ⟨dataSheetRows headers all_data, insightsBlock headers all_data,
    selectedMetrics.length⟩

/-- `start_date > end_date` gate of the monthly app (lines 18–20): the run
aborts (`st.stop`) before any query when the start is after the end. -/
def monthlyDateGate (startDate endDate : Date) : Except String Unit :=
  if Date.ble startDate endDate then .ok () else .error "Start Date must be before End Date."

/-! ## Weekly flow (src/app_weekly_v1.py) -/

/-- One week window of the weekly app (lines 42–45): name plus the two dates
exactly as the caller supplied them. -/
structure WeekSpec where
  name : String
  start_date : Date
  end_date : Date
  deriving DecidableEq, Repr

/-- The `weeks` list (lines 42–45): the two windows are passed through as-is;
the weekly app performs no `start <= end` validation anywhere. -/
def weeklyWeeks (thisStart thisEnd prevStart prevEnd : Date) : List WeekSpec :=
  [⟨"This Week", thisStart, thisEnd⟩, ⟨"Prev Week", prevStart, prevEnd⟩]

/-- Per-channel metric values of the weekly app, parsed with `int(...)`
(lines 70–77). -/
structure WeekData where
  sessions : ℤ
  users : ℤ
  engaged_sessions : ℤ
  deriving DecidableEq, Repr

/-- The zero-filled default `{"sessions": 0, "users": 0,
"engaged_sessions": 0}` used by `.get(channel, ...)` (lines 114–115). -/
def WeekData.zero : WeekData := ⟨0, 0, 0⟩

/-- Building `week_data` from one response (lines 67–77): for each response
row, if its channel is among the selected channels, record its integer
metric triple under that channel (a later row for the same channel
overwrites an earlier one). -/
def weekBuild (resp : List (String × WeekData)) (selected : List String) :
    String → Option WeekData :=
  resp.foldl (fun acc r =>
    if r.1 ∈ selected then (fun c => if c = r.1 then some r.2 else acc c) else acc)
    (fun _ => none)

/-- The weekly fetch loop (lines 49–81): each week is queried inside
`try/except`; on success `weekly_data[name]` is set to the built
`week_data`, on any exception the error is reported and the key is simply
never set. -/
def weeklyData (weeks : List WeekSpec)
    (fetch : WeekSpec → Except String (List (String × WeekData)))
    (selected : List String) : String → Option (String → Option WeekData) :=
  weeks.foldl (fun acc wk =>
    match fetch wk with
    | .ok resp => (fun n => if n = wk.name then some (weekBuild resp selected) else acc n)
    | .error _ => acc) (fun _ => none)

/-- `weekly_data.get(weekName, {}).get(channel, zeros)` (lines 114–115). -/
def getChannelData (weekly : String → Option (String → Option WeekData))
    (weekName channel : String) : WeekData :=
  match weekly weekName with
  | none => WeekData.zero
  | some m => (m channel).getD WeekData.zero

/-- `change_data` (lines 117–130): per metric,
`(this - prev) / prev * 100 if prev else 0`. -/
def weeklyChange (thisVal prevVal : ℤ) : ℚ :=
  if prevVal ≠ 0 then ((thisVal : ℚ) - prevVal) / prevVal * 100 else 0

/-- A cell of the weekly sheet: text or an integer count. -/
inductive WCell where
  | str (s : String)
  | int (n : ℤ)
  deriving DecidableEq, Repr

/-- The three rows written for one channel (lines 132–154): "This Week",
"Prev Week" and "% Change"; column order is Users, Sessions, Engaged
Sessions, and the change cells are rendered with `f"{value:.2f}%"`. -/
def channelRows (thisData prevData : WeekData) : List (List WCell) :=
  [[.str "This Week", .int thisData.users, .int thisData.sessions,
      .int thisData.engaged_sessions],
   [.str "Prev Week", .int prevData.users, .int prevData.sessions,
      .int prevData.engaged_sessions],
   [.str "% Change",
      .str (fixed2 (weeklyChange thisData.users prevData.users) ++ "%"),
      .str (fixed2 (weeklyChange thisData.sessions prevData.sessions) ++ "%"),
      .str (fixed2 (weeklyChange thisData.engaged_sessions prevData.engaged_sessions) ++ "%")]]

/-- The body of the "Weekly Comparison" sheet (lines 112–154): three rows per
selected channel, with values looked up through the zero-defaulting
`.get` chain. -/
def weeklySheetBody (weekly : String → Option (String → Option WeekData))
    (selectedChannels : List String) : List (List WCell) :=
  selectedChannels.flatMap (fun ch =>
    channelRows (getChannelData weekly "This Week" ch)
      (getChannelData weekly "Prev Week" ch))

/-- The whole weekly pipeline after the credential/property gate
(lines 41–158): build the weeks list, fetch each, and render the sheet.
There is no date-range validation on this path; the function is total and
always yields a sheet. -/
def weeklyPipeline (thisStart thisEnd prevStart prevEnd : Date)
    (selectedChannels : List String)
    (fetch : WeekSpec → Except String (List (String × WeekData))) : List (List WCell) :=
  weeklySheetBody
    (weeklyData (weeklyWeeks thisStart thisEnd prevStart prevEnd) fetch selectedChannels)
    selectedChannels

/-! ## Concrete scenarios used by the spec's examples -/

/-- The weekly scenario fetch: "This Week" returns the single channel row
"Paid Search" (sessions 200, users 150, engaged sessions 90); "Prev Week"
returns no rows at all. -/
def c5Fetch : WeekSpec → Except String (List (String × WeekData)) :=
  fun wk => if wk.name = "This Week" then .ok [("Paid Search", ⟨200, 150, 90⟩)] else .ok []

/-- `weekly_data` of the weekly scenario. -/
def c5Weekly : String → Option (String → Option WeekData) :=
  weeklyData (weeklyWeeks ⟨2024, 1, 8⟩ ⟨2024, 1, 14⟩ ⟨2024, 1, 1⟩ ⟨2024, 1, 7⟩) c5Fetch
    ["Organic Search", "Paid Search"]

/-- The monthly end-to-end scenario fetch: January returns one row with
sessions 1000 and users 800, February one row with sessions 1100 and
users 750. -/
def c6Fetch : Period → Except String (List (List ℚ)) :=
  fun p => if p.month = "Jan" then .ok [[1000, 800]] else .ok [[1100, 750]]

/-! ### Date arithmetic lemmas -/

theorem daysInMonth_ge (y m : ℕ) : 28 ≤ daysInMonth y m := by
  unfold daysInMonth
  split_ifs <;> omega

theorem daysInMonth_le (y m : ℕ) : daysInMonth y m ≤ 31 := by
  unfold daysInMonth
  split_ifs <;> omega

theorem daysInMonth_twelve (y : ℕ) : daysInMonth y 12 = 31 := by
  simp [daysInMonth]

theorem monthIndex_dateOfIndex (i : ℕ) : monthIndex (dateOfIndex i) = i := by
  simp only [monthIndex, dateOfIndex]
  omega

theorem dateOfIndex_eq (y m : ℕ) (h1 : 1 ≤ m) (h2 : m ≤ 12) :
    dateOfIndex (12 * y + (m - 1)) = ⟨y, m, 1⟩ := by
  have ha : (12 * y + (m - 1)) / 12 = y := by omega
  have hb : (12 * y + (m - 1)) % 12 + 1 = m := by omega
  simp [dateOfIndex, ha, hb]

theorem dateOfIndex_valid (i : ℕ) : (dateOfIndex i).Valid := by
  have h := daysInMonth_ge (i / 12) (i % 12 + 1)
  simp only [Date.Valid, dateOfIndex]
  exact ⟨by omega, by omega, by omega, by omega⟩

theorem addDays_within (k : ℕ) : ∀ d : Date,
    d.day + k ≤ daysInMonth d.year d.month → addDays d k = ⟨d.year, d.month, d.day + k⟩ := by
  induction k with
  | zero => intro d _; simp [addDays]
  | succ n ih =>
    intro d h
    have hlt : d.day < daysInMonth d.year d.month := by omega
    have hnext : nextDay d = ⟨d.year, d.month, d.day + 1⟩ := by
      simp [nextDay, hlt]
    have hstep : addDays d (n + 1) = addDays (nextDay d) n := rfl
    have hpre : (⟨d.year, d.month, d.day + 1⟩ : Date).day + n ≤
        daysInMonth (⟨d.year, d.month, d.day + 1⟩ : Date).year
          (⟨d.year, d.month, d.day + 1⟩ : Date).month := by
      show d.day + 1 + n ≤ daysInMonth d.year d.month
      omega
    rw [hstep, hnext, ih ⟨d.year, d.month, d.day + 1⟩ hpre]
    simp only [Date.mk.injEq]
    exact ⟨trivial, trivial, by omega⟩

theorem addDays_split (a : ℕ) : ∀ (d : Date) (b : ℕ),
    addDays d (a + b) = addDays (addDays d a) b := by
  induction a with
  | zero => intro d b; simp [addDays]
  | succ n ih =>
    intro d b
    have h1 : n + 1 + b = (n + b) + 1 := by omega
    rw [h1]
    have h2 : addDays d (n + b + 1) = addDays (nextDay d) (n + b) := rfl
    have h3 : addDays d (n + 1) = addDays (nextDay d) n := rfl
    rw [h2, h3, ih]

/-- Stepping 31 days from the first of a month and snapping back to day 1
(`(month_start + timedelta(days=31)).replace(day=1)`) lands exactly on the
first of the next calendar month. -/
theorem firstOfMonth_addDays_31 (y m : ℕ) (h1 : 1 ≤ m) (h2 : m ≤ 12) :
    firstOfMonth (addDays ⟨y, m, 1⟩ 31) = dateOfIndex (12 * y + (m - 1) + 1) := by
  have h28 := daysInMonth_ge y m
  have h31 := daysInMonth_le y m
  set dm := daysInMonth y m with hdm
  have hsplit : (31 : ℕ) = (dm - 1) + ((31 - dm) + 1) := by omega
  rw [hsplit, addDays_split]
  have e1 : addDays ⟨y, m, 1⟩ (dm - 1) = ⟨y, m, dm⟩ := by
    rw [addDays_within (dm - 1) ⟨y, m, 1⟩ (by simp [← hdm]; omega)]
    simp
    omega
  rw [e1]
  have e2 : addDays (⟨y, m, dm⟩ : Date) ((31 - dm) + 1) =
      addDays (nextDay ⟨y, m, dm⟩) (31 - dm) := rfl
  rw [e2]
  have hnotlt : ¬ dm < daysInMonth y m := by omega
  by_cases hm : m < 12
  · have e3 : nextDay (⟨y, m, dm⟩ : Date) = ⟨y, m + 1, 1⟩ := by
      simp [nextDay, hnotlt, hm]
    have hpre : (⟨y, m + 1, 1⟩ : Date).day + (31 - dm) ≤
        daysInMonth (⟨y, m + 1, 1⟩ : Date).year (⟨y, m + 1, 1⟩ : Date).month := by
      show 1 + (31 - dm) ≤ daysInMonth y (m + 1)
      have := daysInMonth_ge y (m + 1)
      omega
    rw [e3, addDays_within (31 - dm) ⟨y, m + 1, 1⟩ hpre]
    have := dateOfIndex_eq y (m + 1) (by omega) (by omega)
    rw [show 12 * y + (m - 1) + 1 = 12 * y + (m + 1 - 1) from by omega, this]
    simp [firstOfMonth]
  · have hm12 : m = 12 := by omega
    subst hm12
    have e3 : nextDay (⟨y, 12, dm⟩ : Date) = ⟨y + 1, 1, 1⟩ := by
      simp [nextDay, hnotlt]
    have hdm31 : dm = 31 := by rw [hdm]; exact daysInMonth_twelve y
    rw [e3, hdm31]
    simp only [Nat.sub_self]
    have := dateOfIndex_eq (y + 1) 1 (by omega) (by omega)
    rw [show 12 * y + (12 - 1) + 1 = 12 * (y + 1) + (1 - 1) from by omega, this]
    simp [addDays, firstOfMonth]

/-- Stepping back one day from the first of month `i + 1` lands on the last
day of month `i`. -/
theorem prevDay_dateOfIndex (i : ℕ) :
    prevDay (dateOfIndex (i + 1)) = lastOfIndex i := by
  simp only [prevDay, dateOfIndex, lastOfIndex]
  by_cases h : (i + 1) % 12 = 0
  · have h1 : ¬ (1 : ℕ) < 1 := by omega
    have h2 : ¬ 1 < (i + 1) % 12 + 1 := by omega
    simp only [h1, if_false, h2, if_false]
    have ha : (i + 1) / 12 - 1 = i / 12 := by omega
    have hb : i % 12 + 1 = 12 := by omega
    rw [ha, hb, daysInMonth_twelve]
  · have h1 : ¬ (1 : ℕ) < 1 := by omega
    have h2 : 1 < (i + 1) % 12 + 1 := by omega
    simp only [h1, if_false, h2, if_true]
    have ha : (i + 1) / 12 = i / 12 := by omega
    have hb : (i + 1) % 12 + 1 - 1 = i % 12 + 1 := by omega
    rw [ha, hb]

/-- The day after the last day of month `i` is the first day of month
`i + 1`. -/
theorem nextDay_lastOfIndex (i : ℕ) :
    nextDay (lastOfIndex i) = dateOfIndex (i + 1) := by
  simp only [nextDay, lastOfIndex, dateOfIndex]
  have h1 : ¬ daysInMonth (i / 12) (i % 12 + 1) < daysInMonth (i / 12) (i % 12 + 1) := by omega
  rw [if_neg h1]
  by_cases h : i % 12 + 1 < 12
  · rw [if_pos h]
    simp only [Date.mk.injEq]
    exact ⟨by omega, by omega, trivial⟩
  · rw [if_neg h]
    simp only [Date.mk.injEq]
    exact ⟨by omega, by omega, trivial⟩

theorem ble_dateOfIndex_iff (i : ℕ) (e : Date) (he : e.Valid) :
    Date.ble (dateOfIndex i) e = true ↔ i ≤ monthIndex e := by
  obtain ⟨h1, h2, h3, _⟩ := he
  simp only [Date.ble, dateOfIndex, monthIndex, decide_eq_true_eq]
  omega

theorem monthIndex_mono (c e : Date) (hc : c.Valid) (he : e.Valid)
    (h : Date.ble c e = true) : monthIndex c ≤ monthIndex e := by
  obtain ⟨hc1, hc2, _, _⟩ := hc
  obtain ⟨he1, he2, _, _⟩ := he
  simp only [Date.ble, decide_eq_true_eq] at h
  simp only [monthIndex]
  omega

theorem ble_lastOfIndex (i : ℕ) (e : Date) (he : e.Valid)
    (h : i < monthIndex e) : Date.ble (lastOfIndex i) e = true := by
  obtain ⟨h1, h2, _, _⟩ := he
  simp only [Date.ble, lastOfIndex, monthIndex, decide_eq_true_eq] at *
  omega

theorem firstOfMonth_eq_dateOfIndex (c : Date) (hc : c.Valid) :
    firstOfMonth c = dateOfIndex (monthIndex c) := by
  obtain ⟨h1, h2, _, _⟩ := hc
  rw [monthIndex, dateOfIndex_eq c.year c.month h1 h2]
  rfl

/-- One loop iteration advances from the first of month `i` to the first of
month `i + 1`. -/
theorem nextMonth_eq (i : ℕ) :
    firstOfMonth (addDays (dateOfIndex i) 31) = dateOfIndex (i + 1) := by
  have h := firstOfMonth_addDays_31 (i / 12) (i % 12 + 1) (by omega) (by omega)
  rw [show dateOfIndex i = (⟨i / 12, i % 12 + 1, 1⟩ : Date) from rfl, h]
  congr 1
  omega

/-- Full characterization of the `generate_months` loop: starting in the
calendar month of `current`, it emits `mkPeriod` for every month index from
`monthIndex current` up to `monthIndex e`. -/
theorem generateMonthsGo_spec : ∀ (fuel : ℕ) (c e : Date), c.Valid → e.Valid →
    (c.day = 1 ∨ Date.ble c e = true) →
    monthIndex e + 1 - monthIndex c ≤ fuel →
    generateMonthsGo fuel c e =
      (List.range (monthIndex e + 1 - monthIndex c)).map
        (fun k => mkPeriod (monthIndex c + k) e) := by
  intro fuel
  induction fuel with
  | zero =>
    intro c e _ _ _ hfuel
    rw [show monthIndex e + 1 - monthIndex c = 0 from by omega]
    simp [generateMonthsGo]
  | succ n ih =>
    intro c e hc he hday hfuel
    by_cases hble : Date.ble c e = true
    · have hidx : monthIndex c ≤ monthIndex e := monthIndex_mono c e hc he hble
      have hfm : firstOfMonth c = dateOfIndex (monthIndex c) :=
        firstOfMonth_eq_dateOfIndex c hc
      rw [generateMonthsGo, if_pos hble]
      simp only [hfm, nextMonth_eq, prevDay_dateOfIndex]
      have ht := ih (dateOfIndex (monthIndex c + 1)) e (dateOfIndex_valid _) he
        (Or.inl rfl) (by rw [monthIndex_dateOfIndex]; omega)
      rw [monthIndex_dateOfIndex] at ht
      rw [ht, show monthIndex e + 1 - monthIndex c = (monthIndex e - monthIndex c) + 1
        from by omega, List.range_succ_eq_map, List.map_cons, List.map_map]
      congr 1
      rw [show monthIndex e + 1 - (monthIndex c + 1) = monthIndex e - monthIndex c
        from by omega]
      apply List.map_congr_left
      intro k hk
      simp only [Function.comp_apply, Nat.succ_eq_add_one]
      rw [show monthIndex c + 1 + k = monthIndex c + (k + 1) from by omega]
    · have hd1 : c.day = 1 := by
        rcases hday with h | h
        · exact h
        · exact absurd h hble
      have hcd : c = dateOfIndex (monthIndex c) := by
        rw [← firstOfMonth_eq_dateOfIndex c hc]
        obtain ⟨_, _, _, _⟩ := hc
        cases c
        simp_all [firstOfMonth]
      have : ¬ monthIndex c ≤ monthIndex e := by
        intro hle
        apply hble
        rw [hcd]
        exact (ble_dateOfIndex_iff (monthIndex c) e he).mpr hle
      rw [generateMonthsGo, if_neg (by simp [hble]),
        show monthIndex e + 1 - monthIndex c = 0 from by omega]
      simp

/-- `generate_months start end` is the list of `mkPeriod i end` for month
indices `i` from `start`'s month to `end`'s month. -/
theorem generate_months_eq (s e : Date) (hs : s.Valid) (he : e.Valid)
    (hse : Date.ble s e = true) :
    generate_months s e =
      (List.range (monthIndex e + 1 - monthIndex s)).map
        (fun k => mkPeriod (monthIndex s + k) e) := by
  apply generateMonthsGo_spec _ s e hs he (Or.inr hse)
  obtain ⟨h1, h2, _, _⟩ := he
  simp only [monthIndex]
  omega

theorem getD_map_range (n k : ℕ) (f : ℕ → Period) (d : Period) (hk : k < n) :
    (((List.range n).map f).getD k d) = f k := by
  rw [List.getD_eq_getElem?_getD, List.getElem?_map, List.getElem?_range hk]
  rfl

theorem ble_dateOfIndex_lastOfIndex (i : ℕ) :
    Date.ble (dateOfIndex i) (lastOfIndex i) = true := by
  have := daysInMonth_ge (i / 12) (i % 12 + 1)
  simp only [Date.ble, dateOfIndex, lastOfIndex, decide_eq_true_eq, true_and]
  omega

/-! ## Claim theorems -/

/-- **C1**: for every pair of valid dates `start <= end`, `generate_months`
returns exactly `N` periods, where `N = monthIndex end + 1 - monthIndex
start` is the number of distinct calendar months the span covers; the `k`-th
period lies in the `k`-th calendar month after `start`'s (one period per
month, in chronological order), is labelled with its month's short name, has
`end_date = min(last day of that month, end)`, is non-empty, and each
period's successor starts the day after that period ends (contiguous and
non-overlapping). -/
theorem generate_months_partition (s e : Date) (hs : s.Valid) (he : e.Valid)
    (hse : Date.ble s e = true) :
    (generate_months s e).length = monthIndex e + 1 - monthIndex s ∧
    (∀ k, k < monthIndex e + 1 - monthIndex s →
      monthIndex ((generate_months s e).getD k noPeriod).start_date = monthIndex s + k ∧
      ((generate_months s e).getD k noPeriod).month =
        monthAbbrev ((generate_months s e).getD k noPeriod).start_date.month ∧
      ((generate_months s e).getD k noPeriod).end_date =
        dmin (endOfMonth ((generate_months s e).getD k noPeriod).start_date) e ∧
      Date.ble ((generate_months s e).getD k noPeriod).start_date
        ((generate_months s e).getD k noPeriod).end_date = true) ∧
    (∀ k, k + 1 < monthIndex e + 1 - monthIndex s →
      ((generate_months s e).getD (k + 1) noPeriod).start_date =
        nextDay (((generate_months s e).getD k noPeriod).end_date)) := by
  have heq := generate_months_eq s e hs he hse
  refine ⟨by rw [heq]; simp, ?_, ?_⟩
  · intro k hk
    rw [heq, getD_map_range _ _ _ _ hk]
    have hidx : monthIndex s + k ≤ monthIndex e := by omega
    refine ⟨monthIndex_dateOfIndex _, rfl, rfl, ?_⟩
    show Date.ble (dateOfIndex (monthIndex s + k))
      (dmin (lastOfIndex (monthIndex s + k)) e) = true
    by_cases hbl : Date.ble (lastOfIndex (monthIndex s + k)) e = true
    · rw [dmin, if_pos hbl]
      exact ble_dateOfIndex_lastOfIndex _
    · rw [dmin, if_neg (by simp [hbl])]
      exact (ble_dateOfIndex_iff _ e he).mpr hidx
  · intro k hk
    rw [heq, getD_map_range _ _ _ _ hk, getD_map_range _ _ _ _ (by omega)]
    have hlt : monthIndex s + k < monthIndex e := by omega
    have hble := ble_lastOfIndex (monthIndex s + k) e he hlt
    show dateOfIndex (monthIndex s + (k + 1)) =
      nextDay (dmin (lastOfIndex (monthIndex s + k)) e)
    rw [dmin, if_pos hble, nextDay_lastOfIndex]
    rfl

/-- Witness for C1 at `start = 2024-01-15`, `end = 2024-03-10` (Jan, Feb and
Mar 2024: three calendar months). -/
theorem generate_months_partition_witness :
    (generate_months ⟨2024, 1, 15⟩ ⟨2024, 3, 10⟩).length = 3 := by
  have h := (generate_months_partition ⟨2024, 1, 15⟩ ⟨2024, 3, 10⟩
    (by decide) (by decide) (by decide)).1
  exact h.trans (by decide)

/-- **C10**: every period produced by the monthly flow starts on the first
day of a calendar month; in particular the first period starts on the first
of `start`'s month, so when the requested start is not a month's first day,
the first period's queried range begins strictly before the requested
start. -/
theorem generate_months_first_day (s e : Date) (hs : s.Valid) (he : e.Valid)
    (hse : Date.ble s e = true) :
    (∀ p ∈ generate_months s e, p.start_date.day = 1) ∧
    ((generate_months s e).getD 0 noPeriod).start_date = ⟨s.year, s.month, 1⟩ ∧
    (s.day ≠ 1 →
      Date.ble ((generate_months s e).getD 0 noPeriod).start_date s = true ∧
      ((generate_months s e).getD 0 noPeriod).start_date ≠ s) := by
  have heq := generate_months_eq s e hs he hse
  have hN : 0 < monthIndex e + 1 - monthIndex s := by
    have := monthIndex_mono s e hs he hse
    omega
  have hstart : ((generate_months s e).getD 0 noPeriod).start_date = ⟨s.year, s.month, 1⟩ := by
    rw [heq, getD_map_range _ _ _ _ hN]
    show dateOfIndex (monthIndex s + 0) = _
    rw [Nat.add_zero, ← firstOfMonth_eq_dateOfIndex s hs]
    rfl
  refine ⟨?_, hstart, ?_⟩
  · intro p hp
    rw [heq] at hp
    rcases List.mem_map.mp hp with ⟨k, -, rfl⟩
    rfl
  · intro hday
    obtain ⟨_, _, hd1, _⟩ := hs
    constructor
    · rw [hstart]
      simp only [Date.ble, decide_eq_true_eq]
      exact Or.inr ⟨trivial, Or.inr ⟨trivial, hd1⟩⟩
    · rw [hstart]
      intro hcontra
      have := congrArg Date.day hcontra
      simp only at this
      omega

/-- Witness for C10 at `start = 2024-01-15`, `end = 2024-03-10`: the first
period starts on 2024-01-01, strictly before the requested start. -/
theorem generate_months_first_day_witness :
    ((generate_months ⟨2024, 1, 15⟩ ⟨2024, 3, 10⟩).getD 0 noPeriod).start_date =
      ⟨2024, 1, 1⟩ := by
  have h := (generate_months_first_day ⟨2024, 1, 15⟩ ⟨2024, 3, 10⟩
    (by decide) (by decide) (by decide)).2.1
  exact h

/-- **C2**: when the previous period's value is 0 for a metric, the monthly
insight's `percentage_change` is 0 (no division-by-zero fault), and since the
classification test is the strict `percentage_change > 0`, every zero
`percentage_change` — the zero-division case as well as exact-zero change —
is classified as "drop", never "improvement"; the weekly `change_data`
likewise yields 0 when the previous value is 0. -/
theorem zero_previous_classified_drop (previous current : ℚ) (thisW prevW : ℤ) :
    (previous = 0 → percentage_change previous current = 0) ∧
    (percentage_change previous current = 0 →
      change_type (percentage_change previous current) = "drop" ∧
      change_type (percentage_change previous current) ≠ "improvement") ∧
    (prevW = 0 → weeklyChange thisW prevW = 0) := by
  refine ⟨?_, ?_, ?_⟩
  · intro h
    simp [percentage_change, h]
  · intro h
    rw [h]
    constructor
    · simp [change_type]
    · simp [change_type]
  · intro h
    simp [weeklyChange, h]

/-- Witness for C2 at `previous = 0`, `current = 7` (monthly) and
`prev = 0`, `this = 5` (weekly). -/
theorem zero_previous_classified_drop_witness :
    percentage_change 0 7 = 0 ∧
    change_type (percentage_change 0 7) = "drop" ∧
    weeklyChange 5 0 = 0 := by
  have h0 := (zero_previous_classified_drop 0 7 5 0).1 rfl
  exact ⟨h0, ((zero_previous_classified_drop 0 7 5 0).2.1 h0).1,
    (zero_previous_classified_drop 0 7 5 0).2.2 rfl⟩

/-- **C3**: no `% Difference` row is produced from fewer than two aggregate
rows; with periods Jan/Feb/Mar and Sessions values 100/150/120 the data
sheet is exactly the header row, the three data rows, and one
`% Difference` row whose value `-0.2` is computed from the last two rows
(Feb 150 → Mar 120, i.e. `round(-20.0, 2) * 0.01`), not from Jan → Feb. -/
theorem delta_compares_last_two :
    (∀ all_data : List DataRow, all_data.length < 2 → percentDiffRow all_data = none) ∧
    dataSheetRows ["Month", "Sessions"] [⟨"Jan", [100]⟩, ⟨"Feb", [150]⟩, ⟨"Mar", [120]⟩] =
      [[⟨.str "Month", .header⟩, ⟨.str "Sessions", .header⟩],
       [⟨.str "Jan", .content⟩, ⟨.num 100, .content⟩],
       [⟨.str "Feb", .content⟩, ⟨.num 150, .content⟩],
       [⟨.str "Mar", .content⟩, ⟨.num 120, .content⟩],
       [⟨.str "% Difference", .content⟩, ⟨.num (-(1 / 5)), .content⟩]] ∧
    ((-(1 / 5) : ℚ) = round2 ((120 - 150) / 150 * 100) * (1 / 100)) ∧
    ((-(1 / 5) : ℚ) ≠ round2 ((150 - 100) / 100 * 100) * (1 / 100)) := by
  refine ⟨?_, by with_unfolding_all decide, by with_unfolding_all decide,
    by with_unfolding_all decide⟩
  intro all_data h
  simp only [percentDiffRow]
  rw [if_neg (by omega)]

/-- Witness for C3: with an empty `all_data` no `% Difference` row exists. -/
theorem delta_compares_last_two_witness : percentDiffRow [] = none :=
  delta_compares_last_two.1 [] (by decide)

set_option maxRecDepth 4000 in
/-- **C4 counterexample**: with a "This Week" window whose start 2024-01-10
is after its end 2024-01-03, the weekly flow does not abort: the window is
passed through verbatim and the pipeline still queries and renders the full
sheet — there is no `start <= end` validation anywhere on the weekly path. -/
theorem weekly_no_validation_counterexample :
    Date.ble ⟨2024, 1, 10⟩ ⟨2024, 1, 3⟩ = false ∧
    weeklyWeeks ⟨2024, 1, 10⟩ ⟨2024, 1, 3⟩ ⟨2024, 1, 1⟩ ⟨2024, 1, 7⟩ =
      [⟨"This Week", ⟨2024, 1, 10⟩, ⟨2024, 1, 3⟩⟩,
       ⟨"Prev Week", ⟨2024, 1, 1⟩, ⟨2024, 1, 7⟩⟩] ∧
    weeklyPipeline ⟨2024, 1, 10⟩ ⟨2024, 1, 3⟩ ⟨2024, 1, 1⟩ ⟨2024, 1, 7⟩
        ["Paid Search"] (fun _ => .ok []) =
      [[.str "This Week", .int 0, .int 0, .int 0],
       [.str "Prev Week", .int 0, .int 0, .int 0],
       [.str "% Change", .str "0.00%", .str "0.00%", .str "0.00%"]] := by
  with_unfolding_all decide

/-- **C4 (amended)**: in weekly mode the two windows are passed through
without generation logic and without any `start <= end` validation — the
pipeline queries and renders for every input, including windows with
`start > end`; only the monthly flow validates `start <= end`, aborting
before any query when the start is after the end. -/
theorem weekly_passthrough_monthly_gate (ts te ps pe s e : Date)
    (chs : List String) (fetch : WeekSpec → Except String (List (String × WeekData)))
    (hm : Date.ble s e = false) :
    weeklyWeeks ts te ps pe = [⟨"This Week", ts, te⟩, ⟨"Prev Week", ps, pe⟩] ∧
    (weeklyPipeline ts te ps pe chs fetch).length = 3 * chs.length ∧
    monthlyDateGate s e = .error "Start Date must be before End Date." := by
  refine ⟨rfl, ?_, ?_⟩
  · have hlen : ∀ (w : String → Option (String → Option WeekData)) (l : List String),
        (weeklySheetBody w l).length = 3 * l.length := by
      intro w l
      induction l with
      | nil => rfl
      | cons c cs ih =>
        simp only [weeklySheetBody, List.flatMap_cons, List.length_append] at *
        rw [ih]
        simp [channelRows]
        omega
    exact hlen _ chs
  · simp only [monthlyDateGate]
    rw [if_neg (by simp [hm])]

/-- Witness for C4 (amended) at the invalid window 2024-01-10..2024-01-03. -/
theorem weekly_passthrough_monthly_gate_witness :
    weeklyWeeks ⟨2024, 1, 10⟩ ⟨2024, 1, 3⟩ ⟨2024, 1, 1⟩ ⟨2024, 1, 7⟩ =
      [⟨"This Week", ⟨2024, 1, 10⟩, ⟨2024, 1, 3⟩⟩,
       ⟨"Prev Week", ⟨2024, 1, 1⟩, ⟨2024, 1, 7⟩⟩] ∧
    (weeklyPipeline ⟨2024, 1, 10⟩ ⟨2024, 1, 3⟩ ⟨2024, 1, 1⟩ ⟨2024, 1, 7⟩
        ["Organic Search", "Paid Search"] (fun _ => .ok [])).length = 3 * 2 ∧
    monthlyDateGate ⟨2024, 1, 10⟩ ⟨2024, 1, 3⟩ =
      .error "Start Date must be before End Date." := by
  have h := weekly_passthrough_monthly_gate ⟨2024, 1, 10⟩ ⟨2024, 1, 3⟩ ⟨2024, 1, 1⟩
    ⟨2024, 1, 7⟩ ⟨2024, 1, 10⟩ ⟨2024, 1, 3⟩ ["Organic Search", "Paid Search"]
    (fun _ => .ok []) (by decide)
  exact ⟨h.1, by simpa using h.2.1, h.2.2⟩

set_option maxRecDepth 4000 in
/-- **C5 counterexample**: in the weekly scenario — "Paid Search" present in
"This Week" with sessions 200, users 150, engaged sessions 90 but absent
from "Prev Week" — the rendered Prev Week row is all zeros, but the
`% Change` row shows `0.00%` for every metric (the zero-division policy
yields 0), not `100.00%` as the claim states. -/
theorem weekly_absent_channel_counterexample :
    channelRows (getChannelData c5Weekly "This Week" "Paid Search")
        (getChannelData c5Weekly "Prev Week" "Paid Search") =
      [[.str "This Week", .int 150, .int 200, .int 90],
       [.str "Prev Week", .int 0, .int 0, .int 0],
       [.str "% Change", .str "0.00%", .str "0.00%", .str "0.00%"]] ∧
    WCell.str "0.00%" ≠ WCell.str "100.00%" := by
  with_unfolding_all decide

/-- **C5 (amended)**: for any channel absent from the "Prev Week" result,
the zero-defaulting lookup yields the all-zero record, the rendered Prev
Week row is all zeros, and the `% Change` row shows `0.00%` for each metric
(previous = 0 is defined as 0 by the zero-division policy). -/
theorem weekly_absent_channel_zero_change
    (weekly : String → Option (String → Option WeekData))
    (m : String → Option WeekData) (ch : String) (t : WeekData)
    (hp : weekly "Prev Week" = some m) (hnone : m ch = none) :
    getChannelData weekly "Prev Week" ch = WeekData.zero ∧
    channelRows t (getChannelData weekly "Prev Week" ch) =
      [[.str "This Week", .int t.users, .int t.sessions, .int t.engaged_sessions],
       [.str "Prev Week", .int 0, .int 0, .int 0],
       [.str "% Change", .str "0.00%", .str "0.00%", .str "0.00%"]] := by
  have hz : getChannelData weekly "Prev Week" ch = WeekData.zero := by
    simp [getChannelData, hp, hnone]
  refine ⟨hz, ?_⟩
  rw [hz]
  have hc : ∀ x : ℤ, fixed2 (weeklyChange x 0) ++ "%" = "0.00%" := by
    intro x
    have h0 : weeklyChange x 0 = 0 := by simp [weeklyChange]
    rw [h0]
    with_unfolding_all decide
  simp [channelRows, WeekData.zero, hc]

/-- Witness for C5 (amended) at the concrete weekly scenario. -/
theorem weekly_absent_channel_zero_change_witness :
    getChannelData c5Weekly "Prev Week" "Paid Search" = WeekData.zero ∧
    channelRows ⟨200, 150, 90⟩ (getChannelData c5Weekly "Prev Week" "Paid Search") =
      [[.str "This Week", .int 150, .int 200, .int 90],
       [.str "Prev Week", .int 0, .int 0, .int 0],
       [.str "% Change", .str "0.00%", .str "0.00%", .str "0.00%"]] :=
  weekly_absent_channel_zero_change c5Weekly (fun _ => none) "Paid Search"
    ⟨200, 150, 90⟩ (by with_unfolding_all rfl) rfl

set_option maxRecDepth 8000 in
/-- **C6**: previous 100 → current 150 gives `percentage_change = 50.0`,
classified "improvement"; in the two-month end-to-end scenario (Jan
sessions 1000 / users 800, Feb sessions 1100 / users 750) the Users delta is
-6.25, classified "drop", and the rendered insight lines are exactly those
produced by the template, the Users line reading "We observed a drop of
6.25% in Users in Feb compared to Jan.". -/
theorem delta_values_and_insight_text :
    percentage_change 100 150 = 50 ∧
    change_type (percentage_change 100 150) = "improvement" ∧
    percentage_change 1000 1100 = 10 ∧
    change_type (percentage_change 1000 1100) = "improvement" ∧
    percentage_change 800 750 = -6.25 ∧
    change_type (percentage_change 800 750) = "drop" ∧
    insightsBlock ["Month", "Sessions", "Users"]
        (buildAllData (generate_months ⟨2024, 1, 1⟩ ⟨2024, 2, 29⟩) c6Fetch 2) =
      some ["We observed a improvement of 10.0% in Sessions in Feb compared to Jan.",
            "We observed a drop of 6.25% in Users in Feb compared to Jan."] := by
  with_unfolding_all decide

/-- **C7**: every `% Difference` cell value equals the corresponding
insight's `percentage_change` divided by 100 (both are produced from the
same delta); at the failing input (two rows, metric values 150 then 120) the
cell holds `-0.2` — but it is written with `content_format`, not with the
percentage format: `percentage_format` (line 145) is never applied to any
cell, contradicting the claim's "written as a percentage-formatted cell". -/
theorem percent_diff_value_content_format :
    (∀ lastVals secondLastVals : List ℚ,
      percentage_differences lastVals secondLastVals =
        (lastVals.zip secondLastVals).map
          (fun p => percentage_change p.2 p.1 * (1 / 100))) ∧
    percentDiffRow [⟨"Jan", [150]⟩, ⟨"Feb", [120]⟩] =
      some [⟨.str "% Difference", .content⟩, ⟨.num (-(1 / 5)), .content⟩] ∧
    ((-(1 / 5) : ℚ) = percentage_change 150 120 * (1 / 100)) ∧
    Fmt.content ≠ Fmt.percentage := by
  refine ⟨?_, by with_unfolding_all decide, by with_unfolding_all decide, by decide⟩
  intro l s
  unfold percentage_differences percentage_change
  apply List.map_congr_left
  intro p _
  by_cases h : p.2 = 0
  · simp [h]
  · simp [h]

/-- **C8**: in the single-channel monthly flow, a run where every query
succeeds produces exactly one aggregate row per period, keyed by the month
label, each metric value being the rational (float) sum of that metric over
all returned rows — also when a filtered query returns more than one row;
in the weekly channel-breakout flow the recorded per-channel values are the
response row's integer triple. -/
theorem monthly_sums_weekly_ints :
    (∀ (months : List Period) (fetchOk : Period → List (List ℚ)) (n : ℕ),
      buildAllData months (fun m => .ok (fetchOk m)) n =
        months.map (fun m => monthlyAggregate m.month (fetchOk m) n)) ∧
    (∀ (label : String) (rows : List (List ℚ)) (n : ℕ),
      (monthlyAggregate label rows n).label = label ∧
      (monthlyAggregate label rows n).values =
        (List.range n).map (fun i => (rows.map (fun r => r.getD i 0)).sum)) ∧
    monthlyAggregate "Jan" [[3 / 2], [5 / 2]] 1 = ⟨"Jan", [4]⟩ ∧
    (∀ (resp : List (String × WeekData)) (sel : List String) (c : String) (w : WeekData),
      c ∈ sel → weekBuild (resp ++ [(c, w)]) sel c = some w) := by
  refine ⟨?_, fun _ _ _ => ⟨rfl, rfl⟩, by with_unfolding_all decide, ?_⟩
  · intro months fetchOk n
    induction months with
    | nil => rfl
    | cons m ms ih =>
      simp only [buildAllData, List.filterMap_cons] at *
      simp [ih]
  · intro resp sel c w hc
    unfold weekBuild
    rw [List.foldl_append]
    simp [hc]

/-- Witness for C8: a two-row response is summed into one aggregate row, and
a weekly response row's integer triple is recorded verbatim. -/
theorem monthly_sums_weekly_ints_witness :
    buildAllData [⟨"Jan", ⟨2024, 1, 1⟩, ⟨2024, 1, 31⟩⟩]
        (fun _ => .ok [[3 / 2], [5 / 2]]) 1 = [⟨"Jan", [4]⟩] ∧
    weekBuild ([("Direct", ⟨7, 8, 9⟩)] ++ [("Paid Search", ⟨1, 2, 3⟩)])
      ["Paid Search"] "Paid Search" = some ⟨1, 2, 3⟩ := by
  constructor
  · have h := monthly_sums_weekly_ints.1 [⟨"Jan", ⟨2024, 1, 1⟩, ⟨2024, 1, 31⟩⟩]
      (fun _ => [[3 / 2], [5 / 2]]) 1
    rw [h]
    with_unfolding_all decide
  · exact monthly_sums_weekly_ints.2.2.2 [("Direct", ⟨7, 8, 9⟩)] ["Paid Search"]
      "Paid Search" ⟨1, 2, 3⟩ (by decide)

/-- **C9**: a failed per-period query is recoverable — the monthly loop
keeps exactly the successful periods' aggregate rows in order, the renderer
is total (its data sheet always contains at least the header row, and when
every query failed the report is still produced, with just the header row);
in the weekly flow a failed week's key is never set, so every channel of
that week renders as the all-zero record. -/
theorem per_period_failure_recoverable :
    (∀ (months : List Period) (fetch : Period → Except String (List (List ℚ))) (n : ℕ),
      buildAllData months fetch n =
        (months.filter (fun m => match fetch m with | .ok _ => true | .error _ => false)).map
          (fun m => monthlyAggregate m.month
            (match fetch m with | .ok rows => rows | .error _ => []) n)) ∧
    (∀ (selectedMetrics : List String) (all_data : List DataRow),
      (monthlyReport selectedMetrics all_data).dataSheet ≠ []) ∧
    (∀ (selectedMetrics : List String) (months : List Period) (n : ℕ) (msg : String),
      buildAllData months (fun _ => .error msg) n = [] ∧
      (monthlyReport selectedMetrics (buildAllData months (fun _ => .error msg) n)).dataSheet =
        [("Month" :: selectedMetrics).map (fun h => ⟨.str h, .header⟩)]) ∧
    (∀ (ts te ps pe : Date) (sel : List String)
      (fetch : WeekSpec → Except String (List (String × WeekData))) (ch msg : String),
      fetch ⟨"Prev Week", ps, pe⟩ = .error msg →
      getChannelData (weeklyData (weeklyWeeks ts te ps pe) fetch sel) "Prev Week" ch =
        WeekData.zero) := by
  refine ⟨?_, ?_, ?_, ?_⟩
  · intro months fetch n
    induction months with
    | nil => rfl
    | cons m ms ih =>
      cases h : fetch m with
      | ok rows =>
        simp only [buildAllData, List.filterMap_cons, List.filter_cons, h]
        simp only [buildAllData] at ih
        simp [ih, h]
      | error msg =>
        simp only [buildAllData, List.filterMap_cons, List.filter_cons, h]
        simp only [buildAllData] at ih
        simp [ih, h]
  · intro selectedMetrics all_data
    simp [monthlyReport, dataSheetRows]
  · intro selectedMetrics months n msg
    have hempty : buildAllData months (fun _ => .error msg) n = [] := by
      induction months with
      | nil => rfl
      | cons m ms ih => simp only [buildAllData, List.filterMap_cons] at *; simp [ih]
    refine ⟨hempty, ?_⟩
    rw [hempty]
    rfl
  · intro ts te ps pe sel fetch ch msg hf
    simp only [weeklyData, weeklyWeeks, List.foldl_cons, List.foldl_nil, hf]
    cases h1 : fetch ⟨"This Week", ts, te⟩ with
    | ok resp =>
      simp only [h1, getChannelData]
      rw [if_neg (by decide)]
    | error m2 =>
      simp only [h1, getChannelData]

/-- Witness for C9: with the "Prev Week" query failing and "This Week"
succeeding, every channel of the failed week reads as all zeros. -/
theorem per_period_failure_recoverable_witness :
    getChannelData
      (weeklyData (weeklyWeeks ⟨2024, 1, 8⟩ ⟨2024, 1, 14⟩ ⟨2024, 1, 1⟩ ⟨2024, 1, 7⟩)
        (fun _ => .error "boom") ["Paid Search"])
      "Prev Week" "Paid Search" = WeekData.zero :=
  per_period_failure_recoverable.2.2.2 ⟨2024, 1, 8⟩ ⟨2024, 1, 14⟩ ⟨2024, 1, 1⟩
    ⟨2024, 1, 7⟩ ["Paid Search"] (fun _ => .error "boom") "Paid Search" "boom" rfl

end GADeploys

